import Mathlib

set_option linter.unusedVariables false

namespace InnovationHub

/-! Shallow embedding of the idea-to-service matching engine of the
innovation-hub repository: keyword extraction, indexing and matching
(service_mapper.py), automatic categorisation (service_mapper.py),
catalog ingestion (service_mapper.py and service_catalog_loader.py),
the RAG mapper decision layer (rag_service_mapper.py), document
chunking (document_processor.py) and chunk deletion (rag_service.py).
Floating-point scores are modelled as rationals; Python dictionaries as
insertion-ordered association lists. -/

/-- Models Python str.lower restricted to the ASCII letters and the
Swedish capitals Å, Ä, Ö, which together form the alphabet of the
catalog data and stop-word list handled by the code (CPython lowercases
all of Unicode; the extra generality is unused here). -/
def pyLowerChar (c : Char) : Char :=
  if 65 ≤ c.toNat ∧ c.toNat ≤ 90 then Char.ofNat (c.toNat + 32)
  else if c = 'Å' then 'å'
  else if c = 'Ä' then 'ä'
  else if c = 'Ö' then 'ö'
  else c

/-- Python str.lower on a whole string, character by character. -/
def pyLower (s : String) : String :=
  String.mk (s.toList.map pyLowerChar)

/-- Character class of the regex [^\wåäöÅÄÖ\s] used by
ServiceMapper._extract_keywords: word characters (alphanumeric or
underscore; the regex \w is Unicode-aware and the explicit åäöÅÄÖ are
redundant in CPython, kept here as the modelled extension of the ASCII
range). -/
def isWordChar (c : Char) : Bool :=
  c.isAlphanum || c == '_' || ['å', 'ä', 'ö', 'Å', 'Ä', 'Ö'].contains c

/-- Models re.sub applied with the pattern [^\wåäöÅÄÖ\s] and
replacement by a single space: every character that is neither a word
character nor whitespace becomes a space. -/
def cleanChar (c : Char) : Char :=
  if isWordChar c || c.isWhitespace then c else ' '

/-- Auxiliary accumulator for whitespace splitting. -/
def splitWsAux : List Char → List Char → List (List Char)
  | [], acc => if acc.isEmpty then [] else [acc.reverse]
  | c :: rest, acc =>
    if c.isWhitespace then
      if acc.isEmpty then splitWsAux rest [] else acc.reverse :: splitWsAux rest []
    else splitWsAux rest (c :: acc)

/-- Models Python str.split with no argument: split on runs of
whitespace, discarding empty pieces. -/
def splitWs (l : List Char) : List (List Char) :=
  splitWsAux l []

/-- The fixed stop-word set of ServiceMapper._extract_keywords,
verbatim from service_mapper.py (the Python source lists "för" twice;
the duplicate is immaterial for membership). -/
def stopWords : List String :=
  ["och", "att", "det", "en", "är", "för", "av", "med", "som", "på", "till", "den",
   "har", "de", "i", "om", "var", "inte", "kan", "vi", "ett", "han", "hon", "du",
   "ska", "blir", "eller", "så", "från", "när", "över", "under", "efter", "före",
   "mellan", "hos", "inom", "utan", "genom", "mot", "vid", "upp", "ner", "ut", "in",
   "bara", "också", "mycket", "mer", "än", "här", "där", "nu", "då", "sedan",
   "bäst", "passar", "används", "tjänst", "service", "system", "lösning", "för"]

/-- ServiceMapper._extract_keywords: lowercase the text, replace every
character outside the word/whitespace classes by a space, split on
whitespace, keep words of length at least 3 that are not stop words,
deduplicate and keep at most 10.  The Python source deduplicates via
list(set(keywords)) whose iteration order is unspecified; it is
modelled by List.dedup, and every property proved about the result is
order-independent. -/
def extractKeywords (text : String) : List String :=
  let cleaned := (text.toList.map pyLowerChar).map cleanChar
  let words := (splitWs cleaned).map String.mk
  let keywords := words.filter (fun w => 3 ≤ w.length && !stopWords.contains w)
  keywords.dedup.take 10

/-- Substring containment, modelling the Python expression
`keyword in text` on strings. -/
def containsSubstring (text pat : String) : Bool :=
  text.toList.tails.any (fun t => pat.toList.isPrefixOf t)

/-- The seven fixed category pattern sets of
ServiceMapper._categorize_service, verbatim from service_mapper.py, in
declaration order. -/
def categoryPatterns : List (String × List String) :=
  [("IT och Digital",
    ["system", "digital", "webb", "app", "api", "databas", "server", "nätverk",
     "internet", "email", "epost", "programvara", "mjukvara", "it", "dator",
     "teknologi", "mobil", "uppkoppling", "anslutning", "wifi", "fiber"]),
   ("Kommunikation",
    ["kommunikation", "telefon", "samtal", "videokonferens", "möte", "meddelande",
     "anslagstavla", "information", "publicera", "kommunicera", "kontakt"]),
   ("Säkerhet",
    ["säkerhet", "brandskydd", "övervakning", "kamera", "larm", "skydd", "säker",
     "behörighet", "access", "inloggning", "authentication", "autentisering"]),
   ("Transport",
    ["transport", "fordons", "bil", "buss", "cykel", "parkering", "trafik",
     "väg", "resa", "mobilitet", "kollektivtrafik"]),
   ("Fastighet och Lokaler",
    ["fastighet", "lokal", "byggnad", "hyra", "uthyrning", "utrymme", "rum",
     "kontor", "mötesrum", "facilitet", "underhåll", "rengöring"]),
   ("Miljö och Hållbarhet",
    ["miljö", "hållbar", "energi", "avfall", "återvinning", "klimat", "grön",
     "förnybar", "koldioxid", "utsläpp", "natur", "ekologi"]),
   ("Utbildning",
    ["utbildning", "kurs", "träning", "lärande", "skola", "undervisning",
     "kompetensutveckling", "workshop", "seminarium", "certifiering"])]

/-- Score of one category pattern set against the lowercased text: one
point per pattern keyword occurring as a substring (`if keyword in
text: score += 1`). -/
def categoryScore (text : String) (patterns : List String) : Nat :=
  patterns.countP (fun k => containsSubstring text k)

/-- The association list category -> score built by
_categorize_service, in declaration order (Python dictionaries preserve
insertion order). -/
def categoryScores (name description : String) : List (String × Nat) :=
  let text := pyLower (name ++ " " ++ description)
  categoryPatterns.map (fun p => (p.1, categoryScore text p.2))

/-- Models Python max(iterable, key=...) on a nonempty list given as
head and tail: scan left to right, replacing the current best only on a
strictly greater key, so the first element achieving the maximum wins. -/
def pyMax (x : String × Nat) (xs : List (String × Nat)) : String × Nat :=
  xs.foldl (fun b a => if b.2 < a.2 then a else b) x

/-- ServiceMapper._categorize_service: pick the best-scoring category,
falling back to the label Övrig when the best score is zero. -/
def categorizeService (name description : String) : String :=
  match categoryScores name description with
  | [] => "Övrig"
  | s :: rest =>
    let best := pyMax s rest
    if 0 < best.2 then best.1 else "Övrig"

/-- ExistingService, the record dataclass of service_mapper.py. -/
structure ExistingService where
  name : String
  description : String
  startDate : String
  keywords : List String
  category : String
deriving DecidableEq, Repr

/-- Construction of one ExistingService from the three leading cell
texts of a catalog row, as in the loop body of
ServiceMapper.load_service_catalog. -/
def mkService (c0 c1 c2 : String) : ExistingService :=
  { name := c0
    description := c1
    startDate := c2
    keywords := extractKeywords (c0 ++ " " ++ c1)
    category := categorizeService c0 c1 }

/-- One iteration of the row loop of ServiceMapper.load_service_catalog:
a row yields a service exactly when it has at least 3 cells (the guard
`if len(cells) >= 3` in the source); shorter rows are skipped. -/
def loadCatalogRow (row : List String) : Option ExistingService :=
  match row with
  | c0 :: c1 :: c2 :: _ => some (mkService c0 c1 c2)
  | _ => none

/-- The service list built by ServiceMapper.load_service_catalog from
the table rows (each row given as its list of td cell texts). -/
def loadServiceCatalogServices (rows : List (List String)) : List ExistingService :=
  rows.filterMap loadCatalogRow

/-- The keyword index of ServiceMapper: an insertion-ordered mapping
keyword -> list of service positions, with repeated appends kept. -/
def KeywordIndex : Type := List (String × List Nat)

/-- Append one position under one keyword, creating the entry at the
end when absent — `self.service_index[keyword].append(i)`. -/
def indexAdd : List (String × List Nat) → String → Nat → List (String × List Nat)
  | [], kw, i => [(kw, [i])]
  | (k, is) :: rest, kw, i =>
    if k = kw then (k, is ++ [i]) :: rest else (k, is) :: indexAdd rest kw i

/-- Words of the service name counted by _build_keyword_index:
`service.name.lower().split()` kept when of length at least 3 (note: no
punctuation stripping here, unlike _extract_keywords). -/
def nameIndexWords (name : String) : List String :=
  ((splitWs (name.toList.map pyLowerChar)).map String.mk).filter (fun w => 3 ≤ w.length)

/-- Index one service at position i: first all its keywords, then all
its qualifying name words, as in _build_keyword_index; a name word that
is also a keyword appends the same position a second time. -/
def indexService (idx : List (String × List Nat)) (i : Nat) (s : ExistingService) :
    List (String × List Nat) :=
  let idx1 := s.keywords.foldl (fun a kw => indexAdd a kw i) idx
  (nameIndexWords s.name).foldl (fun a w => indexAdd a w i) idx1

/-- ServiceMapper._build_keyword_index over the enumerated service list. -/
def buildKeywordIndex (services : List ExistingService) : List (String × List Nat) :=
  services.enum.foldl (fun a p => indexService a p.1 p.2) []

/-- Association-list lookup, modelling `keyword in self.service_index`
plus the subscript access. -/
def indexLookup (idx : List (String × List Nat)) (kw : String) : Option (List Nat) :=
  match idx.find? (fun p => p.1 = kw) with
  | some p => some p.2
  | none => none

/-- The in-memory state of a ServiceMapper instance. -/
structure ServiceMapperState where
  services : List ExistingService
  index : List (String × List Nat)
  loaded : Bool
deriving DecidableEq

/-- State after a successful ServiceMapper.load_service_catalog run on
the given rows: services stored, keyword index built, loaded flag set. -/
def loadedMapper (rows : List (List String)) : ServiceMapperState :=
  let ss := loadServiceCatalogServices rows
  ⟨ss, buildKeywordIndex ss, true⟩

/-- Increment the hit count of one service position in the
insertion-ordered score dictionary (`service_scores[service_idx] += 1`,
inserting at 0 first when absent). -/
def scoreAdd : List (Nat × Nat) → Nat → List (Nat × Nat)
  | [], i => [(i, 1)]
  | (j, n) :: rest, i =>
    if j = i then (j, n + 1) :: rest else (j, n) :: scoreAdd rest i

/-- The score dictionary of find_matching_services: for every idea
keyword present in the index, one increment per stored position
(duplicated positions under one keyword count twice). -/
def serviceScores (idx : List (String × List Nat)) (ideaKeywords : List String) :
    List (Nat × Nat) :=
  ideaKeywords.foldl
    (fun d kw =>
      match indexLookup idx kw with
      | some is => is.foldl scoreAdd d
      | none => d)
    []

/-- Stable descending insertion of one scored entry: the entry goes in
front of the first strictly smaller score, after all ties. -/
def insertDesc (p : Nat × Nat) : List (Nat × Nat) → List (Nat × Nat)
  | [] => [p]
  | q :: rest => if q.2 < p.2 then p :: q :: rest else q :: insertDesc p rest

/-- Stable sort by descending score, modelling Python
sorted(service_scores.items(), key=lambda x: -x[1]); Python sorted is
stable, so its output is exactly the stable descending ordering
produced by this insertion sort. -/
def sortDesc (l : List (Nat × Nat)) : List (Nat × Nat) :=
  l.foldr insertDesc []

/-- ServiceMapper.find_matching_services: empty unless loaded; score by
keyword hits, sort descending by raw hit count, take up to maxResults,
and divide each raw count by max(number of idea keywords, 1). -/
def findMatchingServices (st : ServiceMapperState) (ideaText : String)
    (maxResults : Nat) : List (ExistingService × ℚ) :=
  if !st.loaded then []
  else
    let ideaKeywords := extractKeywords ideaText
    let sortedMatches := sortDesc (serviceScores st.index ideaKeywords)
    let denom : ℚ := (max ideaKeywords.length 1 : Nat)
    (sortedMatches.take maxResults).filterMap
      (fun p => (st.services[p.1]?).map (fun s => (s, (p.2 : ℚ) / denom)))

/-- Per-service summary attached by categorize_idea_development_need
under the keys primary_service / development_candidate. -/
structure ServiceInfo where
  name : String
  description : String
  category : String
  matchScore : ℚ
deriving DecidableEq

/-- Result dictionary of ServiceMapper.categorize_idea_development_need. -/
structure CategorizeOutput where
  recommendation : String
  confidence : ℚ
  reasoning : String
  matchingServices : List (ExistingService × ℚ)
  primaryService : Option ServiceInfo
  developmentCandidate : Option ServiceInfo
deriving DecidableEq

/-- ServiceMapper.categorize_idea_development_need, faithful to
service_mapper.py (the idea title and description parameters are
accepted and unused, as in the source). -/
def categorizeIdeaDevelopmentNeed (ideaTitle ideaDescription : String)
    (matchingServices : List (ExistingService × ℚ)) : CategorizeOutput :=
  match matchingServices with
  | [] =>
    { recommendation := "new_service"
      confidence := (9 : ℚ)/10
      reasoning := "Ingen befintlig tjänst hittades som matchar behovet."
      matchingServices := []
      primaryService := none
      developmentCandidate := none }
  | (bestService, bestScore) :: _ =>
    if (6 : ℚ)/10 ≤ bestScore then
      { recommendation := "existing_service"
        confidence := min ((9 : ℚ)/10) (bestScore + (2 : ℚ)/10)
        reasoning := "Befintlig tjänst \x27" ++ bestService.name ++
          "\x27 kan troligen möta behovet."
        matchingServices := matchingServices.take 3
        primaryService := some ⟨bestService.name, bestService.description,
          bestService.category, bestScore⟩
        developmentCandidate := none }
    else if (3 : ℚ)/10 ≤ bestScore then
      { recommendation := "develop_existing"
        confidence := (7 : ℚ)/10
        reasoning := "Befintlig tjänst \x27" ++ bestService.name ++
          "\x27 skulle kunna utvecklas för att möta behovet."
        matchingServices := matchingServices.take 5
        primaryService := none
        developmentCandidate := some ⟨bestService.name, bestService.description,
          bestService.category, bestScore⟩ }
    else
      { recommendation := "new_service"
        confidence := (8 : ℚ)/10
        reasoning := "Ingen befintlig tjänst matchar tillräckligt väl - ny tjänst behövs troligen."
        matchingServices := matchingServices.take 3
        primaryService := none
        developmentCandidate := none }

/-- One formatted search hit of RAGService.search: the chunk text, the
filename metadata (absent metadata modelled as none, read through
metadata.get with default Unknown Service) and the ChromaDB distance.
RAGService.search always populates the distance field when the vector
store returns distances, which ChromaDB does by default. -/
structure SearchResult where
  text : String
  filename : Option String
  distance : ℚ
deriving DecidableEq

/-- One entry of the matching_services list built by _map_with_rag. -/
structure MatchCandidate where
  name : String
  description : String
  matchScore : ℚ
  source : String
deriving DecidableEq

/-- The result dictionary returned by RAGServiceMapper mapping calls
(keys service_recommendation, service_confidence, service_reasoning,
matching_services, development_impact, best_match_score). -/
structure MatchOutput where
  serviceRecommendation : String
  serviceConfidence : ℚ
  serviceReasoning : String
  matchingServices : List MatchCandidate
  developmentImpact : String
  bestMatchScore : ℚ
deriving DecidableEq

/-- RAGServiceMapper._no_match_result, verbatim. -/
def noMatchResult : MatchOutput :=
  { serviceRecommendation := "new_service"
    serviceConfidence := (8 : ℚ)/10
    serviceReasoning := "Inga tjänster tillgängliga för matchning - ny tjänst behövs troligen."
    matchingServices := []
    developmentImpact := "high"
    bestMatchScore := 0 }

/-- Distance-to-similarity conversion of _map_with_rag:
`max(0, 1.0 - distance)`. -/
def similarityOfDistance (d : ℚ) : ℚ :=
  max 0 (1 - d)

/-- Candidate entry built by _map_with_rag from one search result:
filename metadata with default, first 200 characters of the chunk text,
similarity score, source tag. -/
def toCandidate (r : SearchResult) : MatchCandidate :=
  { name := r.filename.getD "Unknown Service"
    description := String.mk (r.text.toList.take 200)
    matchScore := similarityOfDistance r.distance
    source := "rag" }

/-- Python int() applied to a nonnegative rational percentage
(truncation towards zero equals the floor on nonnegative input). -/
def pctOf (s : ℚ) : ℤ :=
  ⌊s * 100⌋

/-- The body of RAGServiceMapper._map_with_rag after a successful
search call: empty results give the no-match result, otherwise the
first result is the best match and fixed thresholds pick
recommendation, confidence, reasoning template and impact. -/
def mapWithRagOk (results : List SearchResult) (topK : Nat) : MatchOutput :=
  match results with
  | [] => noMatchResult
  | r0 :: rest =>
    let ms := (r0 :: rest).map toCandidate
    let best := toCandidate r0
    let bestScore := best.matchScore
    if (7 : ℚ)/10 ≤ bestScore then
      { serviceRecommendation := "existing_service"
        serviceConfidence := bestScore
        serviceReasoning := "Stark matchning (" ++ toString (pctOf bestScore) ++
          "%) mot befintlig tjänst: " ++ best.name
        matchingServices := ms.take topK
        developmentImpact := "low"
        bestMatchScore := bestScore }
    else if (5 : ℚ)/10 ≤ bestScore then
      { serviceRecommendation := "develop_existing"
        serviceConfidence := (7 : ℚ)/10
        serviceReasoning := "Medel matchning (" ++ toString (pctOf bestScore) ++
          "%) - kan utveckla befintlig tjänst: " ++ best.name
        matchingServices := ms.take topK
        developmentImpact := "medium"
        bestMatchScore := bestScore }
    else
      { serviceRecommendation := "new_service"
        serviceConfidence := (8 : ℚ)/10
        serviceReasoning := "Låg matchning (" ++ toString (pctOf bestScore) ++
          "%) - ny tjänst behövs troligen."
        matchingServices := ms.take topK
        developmentImpact := "high"
        bestMatchScore := bestScore }

/-- Exceptions that the mapper layer can observe. -/
inductive PyErr where
  | attributeError
  | providerError
deriving DecidableEq

/-- The dynamic call `self.keyword_mapper.map_idea_to_services(query_text,
top_k=top_k)` made by RAGServiceMapper._map_with_keywords.  The
ServiceMapper class in service_mapper.py defines load_service_catalog,
_extract_keywords, _categorize_service, _build_keyword_index,
find_matching_services, categorize_idea_development_need and
get_service_summary, and no method named map_idea_to_services, so this
attribute access raises AttributeError for every state and argument. -/
def keywordMapperMapIdeaToServicesCall (st : ServiceMapperState) (queryText : String)
    (topK : Nat) : Except PyErr MatchOutput :=
  Except.error PyErr.attributeError

/-- RAGServiceMapper._map_with_keywords: try the keyword mapper call
and fall back to the no-match result on any exception. -/
def mapWithKeywords (st : ServiceMapperState) (queryText : String) (topK : Nat) :
    MatchOutput :=
  match keywordMapperMapIdeaToServicesCall st queryText topK with
  | Except.ok r => r
  | Except.error _ => noMatchResult

/-- State of a RAGServiceMapper instance at query time: the use_rag
flag, whether rag_service was constructed, the collection count, the
outcome of rag_service.search for the query at hand (a raised exception
or the formatted hits), and the keyword mapper state. -/
structure RagMapperState where
  useRag : Bool
  ragAvailable : Bool
  ragCount : Nat
  searchOutcome : Except PyErr (List SearchResult)
  keywordMapper : ServiceMapperState

/-- RAGServiceMapper._map_with_rag including its try/except: a raising
semantic path falls back to _map_with_keywords. -/
def mapWithRag (st : RagMapperState) (queryText : String) (topK : Nat) : MatchOutput :=
  match st.searchOutcome with
  | Except.error _ => mapWithKeywords st.keywordMapper queryText topK
  | Except.ok results => mapWithRagOk results topK

/-- RAGServiceMapper.map_idea_to_services: build the query from title
and description, use the semantic path when use_rag holds, the service
exists and the collection is non-empty, otherwise the keyword path.
(ensure_services_loaded only mutates loading state and is modelled by
the state fields.) -/
def mapIdeaToServices (st : RagMapperState) (ideaDescription ideaTitle : String)
    (topK : Nat) : MatchOutput :=
  let queryText := ideaTitle ++ ". " ++ ideaDescription
  if st.useRag && st.ragAvailable && decide (0 < st.ragCount) then
    mapWithRag st queryText topK
  else
    mapWithKeywords st.keywordMapper queryText topK

/-- Python str.strip: drop whitespace from both ends. -/
def pyStrip (l : List Char) : List Char :=
  ((l.dropWhile Char.isWhitespace).reverse.dropWhile Char.isWhitespace).reverse

/-- Accumulator for whitespace-run collapsing; the flag records whether
the previous character was whitespace. -/
def collapseWsAux : List Char → Bool → List Char
  | [], _ => []
  | c :: rest, prevWs =>
    if c.isWhitespace then
      if prevWs then collapseWsAux rest true else ' ' :: collapseWsAux rest true
    else c :: collapseWsAux rest false

/-- Models re.sub applied with pattern \s+ and a single-space
replacement: every maximal whitespace run becomes one space. -/
def collapseWs (l : List Char) : List Char :=
  collapseWsAux l false

/-- Python slice-index normalization for a text of length L: negative
indices count from the end and are clamped at 0; nonnegative indices
are clamped at L. -/
def sliceIdx (L : Nat) (i : Int) : Nat :=
  if i < 0 then (max 0 ((L : Int) + i)).toNat else min i.toNat L

/-- Python text[a:b] on a character list. -/
def pySlice (l : List Char) (a b : Int) : List Char :=
  (l.take (sliceIdx l.length b)).drop (sliceIdx l.length a)

/-- Whether sub occurs in l starting exactly at position i. -/
def matchesAt (l sub : List Char) (i : Nat) : Bool :=
  sub.isPrefixOf (l.drop i)

/-- Python str.rfind(sub, a, b): the greatest position of an occurrence
of sub lying entirely inside the slice [a:b], or -1. -/
def pyRfind (l sub : List Char) (a b : Int) : Int :=
  let lo := sliceIdx l.length a
  let hi := sliceIdx l.length b
  let cand := (List.range' lo (hi - lo)).filter
    (fun i => decide (i + sub.length ≤ hi) && matchesAt l sub i)
  match cand.getLast? with
  | some i => (i : Int)
  | none => -1

/-- The sentence terminators searched by
DocumentProcessor.chunk_text. -/
def sentenceEndings : List (List Char) :=
  [". ".toList, "! ".toList, "? ".toList, ".\n".toList, "!\n".toList, "?\n".toList]

/-- The last_sentence scan of chunk_text: fold over the terminators,
remembering pos + len(ending) whenever a found position exceeds the
value remembered so far, starting from -1. -/
def lastSentenceEnd (t : List Char) (s e : Int) : Int :=
  sentenceEndings.foldl
    (fun ls ending =>
      let pos := pyRfind t ending s e
      if ls < pos then pos + (ending.length : Int) else ls)
    (-1)

/-- State of the chunk_text while loop: the running start index (a
Python int, which sentence-boundary shrinking can in fact drive
negative) and the chunks accumulated so far. -/
structure ChunkState where
  start : Int
  chunks : List String
deriving DecidableEq

/-- One iteration of the chunk_text while-loop body: carve the window,
optionally shrink it to the last sentence terminator, emit the stripped
chunk when non-empty, and set start to end - chunk_overlap. -/
def chunkStep (chunkSize chunkOverlap : Nat) (t : List Char) (st : ChunkState) :
    ChunkState :=
  let L : Int := t.length
  let end0 : Int := st.start + chunkSize
  let e : Int :=
    if end0 < L then
      let ls := lastSentenceEnd t st.start end0
      if st.start < ls then ls else end0
    else end0
  let chunk := pyStrip (pySlice t st.start e)
  let newChunks := if chunk.isEmpty then st.chunks else st.chunks ++ [String.mk chunk]
  ⟨e - chunkOverlap, newChunks⟩

/-- The chunk_text while loop, executed for at most fuel iterations
(the Python loop has no iteration bound; fuel makes divergence
observable). -/
def chunkLoop (chunkSize chunkOverlap : Nat) (t : List Char) :
    Nat → ChunkState → ChunkState
  | 0, st => st
  | Nat.succ fuel, st =>
    if st.start < (t.length : Int) then
      chunkLoop chunkSize chunkOverlap t fuel (chunkStep chunkSize chunkOverlap t st)
    else st

/-- DocumentProcessor.chunk_text under a fuel bound: whitespace is
normalized and stripped, short texts are returned whole, and otherwise
the loop runs; none means the loop had not terminated within fuel
iterations. -/
def chunkTextFuel (chunkSize chunkOverlap fuel : Nat) (text : String) :
    Option (List String) :=
  let t := pyStrip (collapseWs text.toList)
  if t.length ≤ chunkSize then some [String.mk t]
  else
    let final := chunkLoop chunkSize chunkOverlap t fuel ⟨0, []⟩
    if final.start < (t.length : Int) then none else some final.chunks

/-- One stored vector-store record as seen by
RAGService.delete_document: its ChromaDB id and its filename metadata
(aligned ids and metadatas of collection.get). -/
structure StoredChunk where
  id : String
  filename : String
deriving DecidableEq

/-- RAGService.delete_document: collect the ids whose filename metadata
equals the argument, delete those ids when any exist, and report the
count (the not_found branch deletes nothing and reports 0). -/
def deleteDocument (coll : List StoredChunk) (filename : String) :
    Nat × List StoredChunk :=
  let idsToDelete := (coll.filter (fun c => c.filename = filename)).map (fun c => c.id)
  if idsToDelete.isEmpty then (0, coll)
  else (idsToDelete.length, coll.filter (fun c => !idsToDelete.contains c.id))

/-- One HTML table cell as seen by
ServiceCatalogLoader.load_html_service_catalog: its tag (td or th) and
its stripped text. -/
structure HtmlCell where
  tag : String
  text : String
deriving DecidableEq

/-- The formatted per-service document text built by
load_html_service_catalog. -/
def serviceText (nm desc sd : String) : String :=
  "Tjänst: " ++ nm ++ "\n\nBeskrivning: " ++ desc ++ "\n\nStartdatum: " ++ sd ++
  "\n\nDetta är en befintlig tjänst som kan användas eller utvecklas för att möta liknande behov."

/-- One iteration of the row loop of load_html_service_catalog: header
rows (first cell tagged th) are skipped, data rows need at least 2
cells and non-empty name and description text to be added, and the
added document is identified by the service name. -/
def loaderRowDoc (row : List HtmlCell) : Option (String × String) :=
  match row with
  | [] => none
  | c0 :: rest =>
    if c0.tag = "th" then none
    else
      match rest with
      | [] => none
      | c1 :: rest2 =>
        if c0.text = "" ∨ c1.text = "" then none
        else
          let startDate := match rest2 with
            | c2 :: _ => c2.text
            | [] => ""
          some (c0.text, serviceText c0.text c1.text startDate)

/-- The (identifier, document text) pairs added to the RAG service by
one load_html_service_catalog run; services_loaded is its length. -/
def loadHtmlServiceCatalogDocs (rows : List (List HtmlCell)) : List (String × String) :=
  rows.filterMap loaderRowDoc

/-- Acceptance predicate of the loader row loop, stated directly:
at least two cells, not a header row, non-empty name and description. -/
def loaderAcceptsRow (row : List HtmlCell) : Bool :=
  match row with
  | c0 :: c1 :: _ => !(c0.tag == "th") && !(c0.text == "") && !(c1.text == "")
  | _ => false

/-- The row condition asserted by the specification for catalog
ingestion: a row produces one service record iff it has at least a name
and a description cell, that is at least 2 cells. -/
def claimRowHasNameAndDescription (row : List String) : Bool :=
  2 ≤ row.length

/-- C10: for every idea title and description,
categorize_idea_development_need on an empty matching_services list
returns recommendation new_service with confidence 0.9 together with an
empty matching_services list, and 0.9 differs from the 0.8 confidence
of the semantic-path no-match result. -/
theorem categorize_empty_gives_new_service_conf_09 (ideaTitle ideaDescription : String) :
    categorizeIdeaDevelopmentNeed ideaTitle ideaDescription [] =
      { recommendation := "new_service"
        confidence := (9 : ℚ)/10
        reasoning := "Ingen befintlig tjänst hittades som matchar behovet."
        matchingServices := []
        primaryService := none
        developmentCandidate := none } ∧
    noMatchResult.serviceConfidence = (8 : ℚ)/10 ∧
    ((9 : ℚ)/10 ≠ (8 : ℚ)/10) :=
  ⟨rfl, rfl, by norm_num⟩

/-- C5: with zero records in the semantic index (and zero services in
the keyword mapper), map_idea_to_services returns the no-match result:
recommendation new_service, confidence 0.8, impact high, empty
candidate list. -/
theorem map_empty_catalog_no_match (st : RagMapperState)
    (ideaDescription ideaTitle : String) (topK : Nat)
    (hrag : st.ragCount = 0) (hkw : st.keywordMapper.services = []) :
    mapIdeaToServices st ideaDescription ideaTitle topK = noMatchResult ∧
    (mapIdeaToServices st ideaDescription ideaTitle topK).serviceRecommendation =
      "new_service" ∧
    (mapIdeaToServices st ideaDescription ideaTitle topK).serviceConfidence = (8 : ℚ)/10 ∧
    (mapIdeaToServices st ideaDescription ideaTitle topK).developmentImpact = "high" ∧
    (mapIdeaToServices st ideaDescription ideaTitle topK).matchingServices = [] := by
  have h : mapIdeaToServices st ideaDescription ideaTitle topK = noMatchResult := by
    unfold mapIdeaToServices
    rw [hrag]
    simp [mapWithKeywords, keywordMapperMapIdeaToServicesCall]
  exact ⟨h, by rw [h]; rfl, by rw [h]; rfl, by rw [h]; rfl, by rw [h]; rfl⟩

/-- Witness for map_empty_catalog_no_match at a concrete empty state. -/
theorem map_empty_catalog_no_match_witness :
    mapIdeaToServices ⟨false, false, 0, Except.error PyErr.providerError, ⟨[], [], false⟩⟩
      "x" "y" 10 = noMatchResult :=
  (map_empty_catalog_no_match
    ⟨false, false, 0, Except.error PyErr.providerError, ⟨[], [], false⟩⟩
    "x" "y" 10 rfl rfl).1

/-- C1 failing input: with a loaded keyword catalog whose index matches
the query (find_matching_services is non-empty there) and a raising
semantic path, map_idea_to_services returns the fixed no-match result —
candidates empty, recommendation new_service — rather than a result
built from the keyword scores, because ServiceMapper has no
map_idea_to_services method and the AttributeError is swallowed by
_map_with_keywords. -/
theorem keyword_fallback_tier_is_dead :
    findMatchingServices (loadedMapper [["digital", "digital", "2020"]])
      "digital. digital" 10 ≠ [] ∧
    mapIdeaToServices
      ⟨true, true, 5, Except.error PyErr.providerError,
        loadedMapper [["digital", "digital", "2020"]]⟩
      "digital" "digital" 10 = noMatchResult ∧
    noMatchResult.matchingServices = [] := by
  refine ⟨by decide, rfl, rfl⟩

/-- C3: for a non-empty semantic result list, the mapper applies the
fixed thresholds to the similarity of the first result: at least 0.7
gives existing_service with confidence equal to the score and low
impact, between 0.5 and 0.7 gives develop_existing with confidence 0.7
and medium impact, below 0.5 gives new_service with confidence 0.8 and
high impact; the reasoning is the per-branch template over the best
match name and truncated percentage. -/
theorem rag_threshold_determinism (r0 : SearchResult) (rest : List SearchResult)
    (topK : Nat) :
    ((7 : ℚ)/10 ≤ similarityOfDistance r0.distance →
      mapWithRagOk (r0 :: rest) topK =
        { serviceRecommendation := "existing_service"
          serviceConfidence := similarityOfDistance r0.distance
          serviceReasoning := "Stark matchning (" ++
            toString (pctOf (similarityOfDistance r0.distance)) ++
            "%) mot befintlig tjänst: " ++ r0.filename.getD "Unknown Service"
          matchingServices := ((r0 :: rest).map toCandidate).take topK
          developmentImpact := "low"
          bestMatchScore := similarityOfDistance r0.distance }) ∧
    ((5 : ℚ)/10 ≤ similarityOfDistance r0.distance ∧
        similarityOfDistance r0.distance < (7 : ℚ)/10 →
      mapWithRagOk (r0 :: rest) topK =
        { serviceRecommendation := "develop_existing"
          serviceConfidence := (7 : ℚ)/10
          serviceReasoning := "Medel matchning (" ++
            toString (pctOf (similarityOfDistance r0.distance)) ++
            "%) - kan utveckla befintlig tjänst: " ++ r0.filename.getD "Unknown Service"
          matchingServices := ((r0 :: rest).map toCandidate).take topK
          developmentImpact := "medium"
          bestMatchScore := similarityOfDistance r0.distance }) ∧
    (similarityOfDistance r0.distance < (5 : ℚ)/10 →
      mapWithRagOk (r0 :: rest) topK =
        { serviceRecommendation := "new_service"
          serviceConfidence := (8 : ℚ)/10
          serviceReasoning := "Låg matchning (" ++
            toString (pctOf (similarityOfDistance r0.distance)) ++
            "%) - ny tjänst behövs troligen."
          matchingServices := ((r0 :: rest).map toCandidate).take topK
          developmentImpact := "high"
          bestMatchScore := similarityOfDistance r0.distance }) := by
  have hms : (toCandidate r0).matchScore = similarityOfDistance r0.distance := rfl
  refine ⟨fun h1 => ?_, fun h2 => ?_, fun h3 => ?_⟩
  · show (if (7 : ℚ)/10 ≤ similarityOfDistance r0.distance then _ else _) = _
    rw [if_pos h1]
    rfl
  · show (if (7 : ℚ)/10 ≤ similarityOfDistance r0.distance then _ else _) = _
    rw [if_neg (by linarith [h2.2])]
    simp only [hms]
    rw [if_pos h2.1]
    rfl
  · show (if (7 : ℚ)/10 ≤ similarityOfDistance r0.distance then _ else _) = _
    rw [if_neg (by linarith)]
    simp only [hms]
    rw [if_neg (by linarith)]

/-- Witness for rag_threshold_determinism at distance 0.25, similarity
0.75, strong-match branch. -/
theorem rag_threshold_determinism_witness :
    mapWithRagOk [⟨"some text", some "SvcA", (1 : ℚ)/4⟩] 10 =
      { serviceRecommendation := "existing_service"
        serviceConfidence := similarityOfDistance ((1 : ℚ)/4)
        serviceReasoning := "Stark matchning (" ++
          toString (pctOf (similarityOfDistance ((1 : ℚ)/4))) ++
          "%) mot befintlig tjänst: " ++ (some "SvcA").getD "Unknown Service"
        matchingServices := (([⟨"some text", some "SvcA", (1 : ℚ)/4⟩] :
            List SearchResult).map toCandidate).take 10
        developmentImpact := "low"
        bestMatchScore := similarityOfDistance ((1 : ℚ)/4) } :=
  (rag_threshold_determinism ⟨"some text", some "SvcA", (1 : ℚ)/4⟩ [] 10).1
    (by norm_num [similarityOfDistance])

/-- A row yields a record in load_service_catalog exactly when it has
at least 3 cells. -/
theorem loadCatalogRow_isSome (row : List String) :
    (loadCatalogRow row).isSome = decide (3 ≤ row.length) := by
  match row with
  | [] => rfl
  | [c0] => rfl
  | [c0, c1] => rfl
  | c0 :: c1 :: c2 :: rest => simp [loadCatalogRow, Nat.le_add_left]

/-- A row yields a document in load_html_service_catalog exactly when
loaderAcceptsRow holds. -/
theorem loaderRowDoc_isSome (row : List HtmlCell) :
    (loaderRowDoc row).isSome = loaderAcceptsRow row := by
  match row with
  | [] => rfl
  | [c0] =>
    by_cases hth : c0.tag = "th" <;> simp [loaderRowDoc, loaderAcceptsRow, hth]
  | c0 :: c1 :: rest =>
    by_cases hth : c0.tag = "th"
    · simp [loaderRowDoc, loaderAcceptsRow, hth]
    · by_cases h0 : c0.text = "" <;> by_cases h1 : c1.text = "" <;>
        simp [loaderRowDoc, loaderAcceptsRow, hth, h0, h1]

/-- The length of a filterMap is the count of inputs the function
accepts. -/
theorem length_filterMap_isSome {α β : Type} (f : α → Option β) (l : List α) :
    (l.filterMap f).length = l.countP (fun a => (f a).isSome) := by
  induction l with
  | nil => rfl
  | cons a l ih =>
    rw [List.filterMap_cons, List.countP_cons]
    cases h : f a <;> simp [h, ih]

/-- C6 counterexample: a data row with exactly two cells (a name cell
and a description cell) produces no record in
ServiceMapper.load_service_catalog, which requires at least 3 cells, so
the claimed row condition does not describe this loader. -/
theorem catalog_two_cell_row_skipped :
    ¬ ((loadServiceCatalogServices [["Aa", "Bb"]]).length =
        [["Aa", "Bb"]].countP claimRowHasNameAndDescription) := by
  decide

/-- C6 amended: in load_service_catalog a row produces one record iff
it has at least 3 cells; in load_html_service_catalog a row produces
one document iff it is no header row and has at least 2 cells with
non-empty name and description text; in both loaders a rejected row is
skipped while the remaining rows are still ingested. -/
theorem catalog_row_acceptance :
    (∀ rows : List (List String),
      (loadServiceCatalogServices rows).length =
        rows.countP (fun r => decide (3 ≤ r.length))) ∧
    (∀ hrows : List (List HtmlCell),
      (loadHtmlServiceCatalogDocs hrows).length = hrows.countP loaderAcceptsRow) ∧
    (∀ (row : List String) (rows : List (List String)), row.length < 3 →
      loadServiceCatalogServices (row :: rows) = loadServiceCatalogServices rows) := by
  refine ⟨?_, ?_, ?_⟩
  · intro rows
    rw [loadServiceCatalogServices, length_filterMap_isSome]
    exact List.countP_congr (fun r _ => by rw [loadCatalogRow_isSome r])
  · intro hrows
    rw [loadHtmlServiceCatalogDocs, length_filterMap_isSome]
    exact List.countP_congr (fun r _ => by rw [loaderRowDoc_isSome r])
  · intro row rows hshort
    have hnone : loadCatalogRow row = none := by
      have h := loadCatalogRow_isSome row
      rw [decide_eq_false (by omega : ¬ 3 ≤ row.length)] at h
      exact Option.not_isSome_iff_eq_none.1 (by simp [h])
    rw [loadServiceCatalogServices, List.filterMap_cons, hnone]
    rfl

/-- Witness for catalog_row_acceptance: a one-cell row is skipped and
the rest of the (empty) table still ingests. -/
theorem catalog_row_acceptance_witness :
    loadServiceCatalogServices [["Aa"]] = loadServiceCatalogServices [] :=
  catalog_row_acceptance.2.2 ["Aa"] [] (by decide)

/-- With pairwise-distinct ids (ChromaDB ids are unique keys), deleting
by the collected ids hits exactly the chunks whose filename matches. -/
theorem deleteDocument_contains_key (coll : List StoredChunk) (f : String)
    (hids : (coll.map (fun c => c.id)).Nodup) (c : StoredChunk) (hc : c ∈ coll) :
    ((coll.filter (fun c => c.filename = f)).map (fun c => c.id)).contains c.id =
      decide (c.filename = f) := by
  by_cases hcf : c.filename = f
  · have hmem : c.id ∈ (coll.filter (fun c => c.filename = f)).map (fun c => c.id) :=
      List.mem_map_of_mem _ (List.mem_filter.2 ⟨hc, by simp [hcf]⟩)
    show List.elem c.id ((coll.filter (fun c => c.filename = f)).map (fun c => c.id)) =
      decide (c.filename = f)
    rw [List.elem_iff.2 hmem]
    simp [hcf]
  · rw [decide_eq_false hcf]
    cases h : ((coll.filter (fun c => c.filename = f)).map (fun c => c.id)).contains c.id with
    | false => rfl
    | true =>
      exfalso
      have hmem := List.elem_iff.1 h
      obtain ⟨c2, hc2, hid⟩ := List.mem_map.1 hmem
      obtain ⟨hc2mem, hc2f⟩ := List.mem_filter.1 hc2
      have hceq : c2 = c := List.inj_on_of_nodup_map hids hc2mem hc hid
      rw [hceq] at hc2f
      simp [hcf] at hc2f

/-- C9: delete_document removes exactly the chunks whose filename
metadata equals the given identity and reports their count, provided
the stored ids are pairwise distinct; a second delete of the same
identity removes nothing and reports 0. -/
theorem delete_document_exact_and_idempotent (coll : List StoredChunk) (f : String)
    (hids : (coll.map (fun c => c.id)).Nodup) :
    (deleteDocument coll f).1 = coll.countP (fun c => c.filename = f) ∧
    (deleteDocument coll f).2 = coll.filter (fun c => c.filename ≠ f) ∧
    deleteDocument (deleteDocument coll f).2 f = (0, (deleteDocument coll f).2) := by
  have hsecond : ∀ coll2 : List StoredChunk,
      (∀ c ∈ coll2, ¬ c.filename = f) → deleteDocument coll2 f = (0, coll2) := by
    intro coll2 hnone
    have hfilter : coll2.filter (fun c => c.filename = f) = [] :=
      List.filter_eq_nil_iff.2 (fun c hc => by simp [hnone c hc])
    unfold deleteDocument
    rw [hfilter]
    rfl
  by_cases hempty :
      ((coll.filter (fun c => c.filename = f)).map (fun c => c.id)).isEmpty
  · have hfilter : coll.filter (fun c => c.filename = f) = [] :=
      List.map_eq_nil_iff.1 (List.isEmpty_iff.1 hempty)
    have hnone : ∀ c ∈ coll, ¬ c.filename = f := by
      intro c hc hcf
      have : c ∈ coll.filter (fun c => c.filename = f) :=
        List.mem_filter.2 ⟨hc, by simp [hcf]⟩
      rw [hfilter] at this
      exact absurd this (List.not_mem_nil c)
    have hdel : deleteDocument coll f = (0, coll) := hsecond coll hnone
    refine ⟨?_, ?_, ?_⟩
    · rw [hdel, List.countP_eq_length_filter, hfilter]
      rfl
    · rw [hdel]
      exact (List.filter_eq_self.2 (fun c hc => by simp [hnone c hc])).symm
    · rw [hdel]
      exact hsecond coll hnone
  · have hdel : deleteDocument coll f =
        (((coll.filter (fun c => c.filename = f)).map (fun c => c.id)).length,
          coll.filter (fun c =>
            !((coll.filter (fun c => c.filename = f)).map (fun c => c.id)).contains c.id)) := by
      unfold deleteDocument
      rw [if_neg (by simp [hempty])]
    have hfiltereq : coll.filter (fun c =>
          !((coll.filter (fun c => c.filename = f)).map (fun c => c.id)).contains c.id) =
        coll.filter (fun c => c.filename ≠ f) := by
      refine List.filter_congr (fun c hc => ?_)
      rw [deleteDocument_contains_key coll f hids c hc]
      simp
    have hnone2 : ∀ c ∈ coll.filter (fun c => c.filename ≠ f), ¬ c.filename = f := by
      intro c hc
      have := (List.mem_filter.1 hc).2
      simpa using this
    refine ⟨?_, ?_, ?_⟩
    · rw [hdel, List.countP_eq_length_filter, List.length_map]
    · rw [hdel, hfiltereq]
    · rw [hdel, hfiltereq]
      exact hsecond _ hnone2

/-- Witness for delete_document_exact_and_idempotent on a three-chunk
collection with two chunks of the deleted document. -/
theorem delete_document_witness :
    (deleteDocument [⟨"a1", "f"⟩, ⟨"a2", "g"⟩, ⟨"a3", "f"⟩] "f").1 =
      ([⟨"a1", "f"⟩, ⟨"a2", "g"⟩, ⟨"a3", "f"⟩] : List StoredChunk).countP
        (fun c => c.filename = "f") :=
  (delete_document_exact_and_idempotent [⟨"a1", "f"⟩, ⟨"a2", "g"⟩, ⟨"a3", "f"⟩] "f"
    (by decide)).1

/-- C4 counterexample: a catalog whose single service is named by one
of its own keywords gets that keyword indexed twice (keyword slot and
name-word slot), so a one-keyword query scores 2 hits against 1 query
keyword and find_matching_services returns the normalized score 2,
outside [0, 1]. -/
theorem keyword_score_exceeds_one :
    ∃ p ∈ findMatchingServices (loadedMapper [["digital", "digital", "2020"]])
        "digital" 10, ¬ (p.2 ≤ 1) := by
  refine ⟨(mkService "digital" "digital" "2020",
    ((2 : Nat) : ℚ) / ((1 : Nat) : ℚ)), List.Mem.head _, ?_⟩
  norm_num

/-- C4 amended: every normalized score paired with a service returned
by find_matching_services is nonnegative (scores can exceed 1 when a
record is indexed under several slots matching the same query keyword;
the source does not clamp). -/
theorem keyword_scores_nonneg (st : ServiceMapperState) (ideaText : String)
    (maxResults : Nat) (p : ExistingService × ℚ)
    (hp : p ∈ findMatchingServices st ideaText maxResults) : 0 ≤ p.2 := by
  unfold findMatchingServices at hp
  split at hp
  · exact absurd hp (List.not_mem_nil p)
  · obtain ⟨q, hq, hmap⟩ := List.mem_filterMap.1 hp
    cases hsv : st.services[q.1]? with
    | none =>
      rw [hsv] at hmap
      exact absurd hmap (by simp)
    | some s =>
      rw [hsv] at hmap
      simp only [Option.map_some', Option.some.injEq] at hmap
      rw [← hmap]
      exact div_nonneg (by positivity) (by positivity)

/-- Witness for keyword_scores_nonneg at the duplicated-slot catalog. -/
theorem keyword_scores_nonneg_witness :
    0 ≤ ((mkService "digital" "digital" "2020",
        ((2 : Nat) : ℚ) / ((1 : Nat) : ℚ)) : ExistingService × ℚ).2 :=
  keyword_scores_nonneg (loadedMapper [["digital", "digital", "2020"]]) "digital" 10
    (mkService "digital" "digital" "2020", ((2 : Nat) : ℚ) / ((1 : Nat) : ℚ))
    (List.Mem.head _)

/-- The next start index computed by one loop iteration depends only
on the current start index, not on the accumulated chunks. -/
theorem chunkStep_start_only (chunkSize chunkOverlap : Nat) (t : List Char)
    (st : ChunkState) :
    (chunkStep chunkSize chunkOverlap t st).start =
      (chunkStep chunkSize chunkOverlap t ⟨st.start, []⟩).start :=
  rfl

/-- On the 23-character text with an early sentence terminator, a loop
iteration at start 0 shrinks the window to the terminator and moves
start back to -2. -/
theorem chunkStep_tricky_from_zero (st : ChunkState) (h : st.start = 0) :
    (chunkStep 10 5 "a. bbbbbbbbbbbbbbbbbbbb".toList st).start = -2 := by
  rw [chunkStep_start_only, h]
  rfl

/-- At start -2 the same text drives start to -6 (Python slice
semantics turn the negative window empty, the terminator scan returns
-1, and -1 exceeds the negative start). -/
theorem chunkStep_tricky_from_m2 (st : ChunkState) (h : st.start = -2) :
    (chunkStep 10 5 "a. bbbbbbbbbbbbbbbbbbbb".toList st).start = -6 := by
  rw [chunkStep_start_only, h]
  rfl

/-- Start -6 is a fixed point of the loop body on this text: the loop
makes no further progress. -/
theorem chunkStep_tricky_from_m6 (st : ChunkState) (h : st.start = -6) :
    (chunkStep 10 5 "a. bbbbbbbbbbbbbbbbbbbb".toList st).start = -6 := by
  rw [chunkStep_start_only, h]
  rfl

/-- Every number of iterations leaves the start index in {0, -2, -6},
always strictly below the text length, so the loop condition never
becomes false. -/
theorem chunkLoop_tricky_stuck (fuel : Nat) : ∀ st : ChunkState,
    st.start = 0 ∨ st.start = -2 ∨ st.start = -6 →
    (chunkLoop 10 5 "a. bbbbbbbbbbbbbbbbbbbb".toList fuel st).start = 0 ∨
    (chunkLoop 10 5 "a. bbbbbbbbbbbbbbbbbbbb".toList fuel st).start = -2 ∨
    (chunkLoop 10 5 "a. bbbbbbbbbbbbbbbbbbbb".toList fuel st).start = -6 := by
  induction fuel with
  | zero =>
    intro st h
    exact h
  | succ n ih =>
    intro st h
    have hlt : st.start < ("a. bbbbbbbbbbbbbbbbbbbb".toList.length : Int) := by
      have h23 : ("a. bbbbbbbbbbbbbbbbbbbb".toList.length : Int) = 23 := rfl
      rw [h23]
      rcases h with h | h | h <;> rw [h] <;> norm_num
    rw [chunkLoop, if_pos hlt]
    apply ih
    rcases h with h | h | h
    · exact Or.inr (Or.inl (chunkStep_tricky_from_zero st h))
    · exact Or.inr (Or.inr (chunkStep_tricky_from_m2 st h))
    · exact Or.inr (Or.inr (chunkStep_tricky_from_m6 st h))

/-- On the terminator-free 6-character text with chunk_size = overlap =
5, start 0 is immediately a fixed point of the loop body. -/
theorem chunkStep_aaa_fixed (st : ChunkState) (h : st.start = 0) :
    (chunkStep 5 5 "aaaaaa".toList st).start = 0 := by
  rw [chunkStep_start_only, h]
  rfl

/-- The start index stays 0 for every number of iterations on the
equal-overlap configuration. -/
theorem chunkLoop_aaa_stuck (fuel : Nat) : ∀ st : ChunkState, st.start = 0 →
    (chunkLoop 5 5 "aaaaaa".toList fuel st).start = 0 := by
  induction fuel with
  | zero =>
    intro st h
    exact h
  | succ n ih =>
    intro st h
    have hlt : st.start < ("aaaaaa".toList.length : Int) := by
      rw [h]
      norm_num
    rw [chunkLoop, if_pos hlt]
    exact ih _ (chunkStep_aaa_fixed st h)

/-- C2 evidence: chunk_text does not terminate on either input — for
every fuel bound the loop is still running.  First input: chunk_size
10, overlap 5 (a configuration the claim covers, 0 ≤ overlap < size)
on a 23-character text whose early sentence terminator drives the
start index to the negative fixed point -6.  Second input: chunk_size
5, overlap 5 on a terminator-free 6-character text, where start never
leaves 0, refuting forward progress for overlap ≥ size. -/
theorem chunk_text_never_terminates :
    (∀ fuel : Nat, chunkTextFuel 10 5 fuel "a. bbbbbbbbbbbbbbbbbbbb" = none) ∧
    (∀ fuel : Nat, chunkTextFuel 5 5 fuel "aaaaaa" = none) := by
  constructor
  · intro fuel
    have hshape : chunkTextFuel 10 5 fuel "a. bbbbbbbbbbbbbbbbbbbb" =
        if (chunkLoop 10 5 "a. bbbbbbbbbbbbbbbbbbbb".toList fuel ⟨0, []⟩).start <
            ("a. bbbbbbbbbbbbbbbbbbbb".toList.length : Int) then none
        else some (chunkLoop 10 5 "a. bbbbbbbbbbbbbbbbbbbb".toList fuel ⟨0, []⟩).chunks :=
      rfl
    have hfin := chunkLoop_tricky_stuck fuel ⟨0, []⟩ (Or.inl rfl)
    have hlt : (chunkLoop 10 5 "a. bbbbbbbbbbbbbbbbbbbb".toList fuel ⟨0, []⟩).start <
        ("a. bbbbbbbbbbbbbbbbbbbb".toList.length : Int) := by
      have h23 : ("a. bbbbbbbbbbbbbbbbbbbb".toList.length : Int) = 23 := rfl
      rw [h23]
      rcases hfin with h | h | h <;> rw [h] <;> norm_num
    rw [hshape, if_pos hlt]
  · intro fuel
    have hshape : chunkTextFuel 5 5 fuel "aaaaaa" =
        if (chunkLoop 5 5 "aaaaaa".toList fuel ⟨0, []⟩).start <
            ("aaaaaa".toList.length : Int) then none
        else some (chunkLoop 5 5 "aaaaaa".toList fuel ⟨0, []⟩).chunks :=
      rfl
    have hlt : (chunkLoop 5 5 "aaaaaa".toList fuel ⟨0, []⟩).start <
        ("aaaaaa".toList.length : Int) := by
      rw [chunkLoop_aaa_stuck fuel ⟨0, []⟩ rfl]
      norm_num
    rw [hshape, if_pos hlt]

/-- The value selected by the Python max scan dominates every score in
the scanned list. -/
theorem pyMax_snd_le (x : String × Nat) (xs : List (String × Nat)) :
    ∀ p ∈ x :: xs, p.2 ≤ (pyMax x xs).2 := by
  induction xs generalizing x with
  | nil =>
    intro p hp
    rw [List.mem_singleton.1 hp]
    exact le_refl _
  | cons y ys ih =>
    intro p hp
    have hfold : pyMax x (y :: ys) = pyMax (if x.2 < y.2 then y else x) ys := rfl
    rw [hfold]
    have hx : x.2 ≤ (if x.2 < y.2 then y else x).2 := by
      split <;> omega
    have hy : y.2 ≤ (if x.2 < y.2 then y else x).2 := by
      split <;> omega
    have hhead : (if x.2 < y.2 then y else x).2 ≤ (pyMax (if x.2 < y.2 then y else x) ys).2 :=
      ih _ _ (List.mem_cons_self _ _)
    rcases List.mem_cons.1 hp with rfl | hp2
    · omega
    · rcases List.mem_cons.1 hp2 with rfl | hp3
      · omega
      · exact ih _ _ (List.mem_cons_of_mem _ hp3)

/-- The Python max scan returns the first element achieving the
maximal score: the scanned list splits around the returned element,
with strictly smaller scores before it and no larger score after it. -/
theorem pyMax_decomposition (x : String × Nat) (xs : List (String × Nat)) :
    ∃ l1 l2, x :: xs = l1 ++ pyMax x xs :: l2 ∧
      (∀ p ∈ l1, p.2 < (pyMax x xs).2) ∧ (∀ p ∈ l2, p.2 ≤ (pyMax x xs).2) := by
  induction xs generalizing x with
  | nil => exact ⟨[], [], rfl, by simp, by simp⟩
  | cons y ys ih =>
    have hfold : pyMax x (y :: ys) = pyMax (if x.2 < y.2 then y else x) ys := rfl
    by_cases hxy : x.2 < y.2
    · obtain ⟨l1, l2, hdec, hl1, hl2⟩ := ih y
      have hm : pyMax x (y :: ys) = pyMax y ys := by rw [hfold, if_pos hxy]
      refine ⟨x :: l1, l2, ?_, ?_, ?_⟩
      · rw [hm, List.cons_append, ← hdec]
      · intro p hp
        rcases List.mem_cons.1 hp with rfl | hp2
        · rw [hm]
          have hymax : y.2 ≤ (pyMax y ys).2 := pyMax_snd_le y ys y (List.mem_cons_self _ _)
          omega
        · rw [hm]
          exact hl1 p hp2
      · intro p hp
        rw [hm]
        exact hl2 p hp
    · obtain ⟨l1, l2, hdec, hl1, hl2⟩ := ih x
      have hm : pyMax x (y :: ys) = pyMax x ys := by rw [hfold, if_neg hxy]
      cases l1 with
      | nil =>
        have hhead : x = pyMax x ys := by
          have := hdec
          rw [List.nil_append] at this
          exact (List.cons_eq_cons.1 this).1
        have htail : ys = l2 := by
          have := hdec
          rw [List.nil_append] at this
          exact (List.cons_eq_cons.1 this).2
        refine ⟨[], y :: l2, ?_, by simp, ?_⟩
        · rw [hm, List.nil_append, ← hhead, ← htail]
        · intro p hp
          rcases List.mem_cons.1 hp with rfl | hp2
          · rw [hm, ← hhead]
            omega
          · rw [hm]
            exact hl2 p hp2
      | cons a l1c =>
        have hax : a = x := ((List.cons_eq_cons.1 hdec).1).symm
        have htail : ys = l1c ++ pyMax x ys :: l2 := (List.cons_eq_cons.1 hdec).2
        refine ⟨x :: y :: l1c, l2, ?_, ?_, ?_⟩
        · rw [hm, List.cons_append, List.cons_append, ← htail]
        · intro p hp
          have hxlt : x.2 < (pyMax x ys).2 := by
            have := hl1 a (List.mem_cons_self _ _)
            rw [hax] at this
            exact this
          rcases List.mem_cons.1 hp with rfl | hp2
          · rw [hm]
            exact hxlt
          · rcases List.mem_cons.1 hp2 with rfl | hp3
            · rw [hm]
              omega
            · rw [hm]
              exact hl1 p (List.mem_cons_of_mem _ hp3)
        · intro p hp
          rw [hm]
          exact hl2 p hp

/-- C7: _categorize_service returns Övrig exactly when every category
scores 0, and otherwise returns the first-declared category achieving
the maximal pattern-keyword count: the declaration-ordered score list
splits around the returned category, every earlier category scoring
strictly less and every later one at most as much. -/
theorem categorize_first_declared_argmax (name description : String) :
    (categorizeService name description = "Övrig" ↔
      ∀ p ∈ categoryScores name description, p.2 = 0) ∧
    (categorizeService name description ≠ "Övrig" →
      ∃ l1 s l2, categoryScores name description =
          l1 ++ (categorizeService name description, s) :: l2 ∧ 0 < s ∧
          (∀ p ∈ l1, p.2 < s) ∧ (∀ p ∈ l2, p.2 ≤ s)) := by
  obtain ⟨s0, rest, hsc⟩ : ∃ s0 rest, categoryScores name description = s0 :: rest :=
    ⟨_, _, rfl⟩
  have hcat : categorizeService name description =
      (if 0 < (pyMax s0 rest).2 then (pyMax s0 rest).1 else "Övrig") := by
    rw [categorizeService, hsc]
  have hnames : ∀ p ∈ categoryScores name description, p.1 ≠ "Övrig" := by
    intro p hp
    obtain ⟨q, hq, hpq⟩ := List.mem_map.1 hp
    rw [← hpq]
    show q.1 ≠ "Övrig"
    simp only [categoryPatterns, List.mem_cons, List.not_mem_nil, or_false] at hq
    rcases hq with rfl | rfl | rfl | rfl | rfl | rfl | rfl <;> decide
  obtain ⟨l1, l2, hdec, hl1, hl2⟩ := pyMax_decomposition s0 rest
  have hmem : pyMax s0 rest ∈ categoryScores name description := by
    rw [hsc, hdec]
    exact List.mem_append_right _ (List.mem_cons_self _ _)
  by_cases hpos : 0 < (pyMax s0 rest).2
  · have hres : categorizeService name description = (pyMax s0 rest).1 := by
      rw [hcat, if_pos hpos]
    refine ⟨⟨fun h => absurd (hres.symm.trans h) (hnames _ hmem), fun hall => ?_⟩, fun _ => ?_⟩
    · have := hall _ hmem
      omega
    · refine ⟨l1, (pyMax s0 rest).2, l2, ?_, hpos, hl1, hl2⟩
      rw [hres, hsc, hdec]
  · have hres : categorizeService name description = "Övrig" := by
      rw [hcat, if_neg hpos]
    refine ⟨iff_of_true hres ?_, fun hneq => absurd hres hneq⟩
    intro p hp
    rw [hsc] at hp
    have := pyMax_snd_le s0 rest p hp
    omega

/-- Witness for categorize_first_declared_argmax: a security keyword
yields a non-Övrig category. -/
theorem categorize_argmax_witness : categorizeService "kamera" "" ≠ "Övrig" :=
  fun heq =>
    absurd ((categorize_first_declared_argmax "kamera" "").1.mp heq) (by decide)

/-- Lowercasing an already-lowered ASCII letter changes nothing; stated
over the raw code point to allow exhaustive checking. -/
theorem pyLowerChar_fixed_upper (n : Nat) (h1 : 65 ≤ n) (h2 : n ≤ 90) :
    pyLowerChar (Char.ofNat (n + 32)) = Char.ofNat (n + 32) := by
  interval_cases n <;> decide

/-- pyLowerChar is idempotent on every character. -/
theorem pyLowerChar_fixed (c : Char) : pyLowerChar (pyLowerChar c) = pyLowerChar c := by
  by_cases h1 : 65 ≤ c.toNat ∧ c.toNat ≤ 90
  · have h : pyLowerChar c = Char.ofNat (c.toNat + 32) := by
      rw [pyLowerChar, if_pos h1]
    rw [h]
    exact pyLowerChar_fixed_upper c.toNat h1.1 h1.2
  · by_cases h2 : c = 'Å'
    · have h : pyLowerChar c = 'å' := by
        rw [pyLowerChar, if_neg h1, if_pos h2]
      rw [h]
      decide
    · by_cases h3 : c = 'Ä'
      · have h : pyLowerChar c = 'ä' := by
          rw [pyLowerChar, if_neg h1, if_neg h2, if_pos h3]
        rw [h]
        decide
      · by_cases h4 : c = 'Ö'
        · have h : pyLowerChar c = 'ö' := by
            rw [pyLowerChar, if_neg h1, if_neg h2, if_neg h3, if_pos h4]
          rw [h]
          decide
        · have h : pyLowerChar c = c := by
            rw [pyLowerChar, if_neg h1, if_neg h2, if_neg h3, if_neg h4]
          rw [h, h]

/-- The regex replacement either keeps a character or turns it into a
space. -/
theorem cleanChar_eq_or (c : Char) : cleanChar c = c ∨ cleanChar c = ' ' := by
  unfold cleanChar
  split
  · exact Or.inl rfl
  · exact Or.inr rfl

/-- Every character of every word produced by the whitespace splitter
comes from the input list or the accumulator. -/
theorem splitWsAux_chars (l : List Char) : ∀ (acc w : List Char), w ∈ splitWsAux l acc →
    ∀ c ∈ w, c ∈ l ∨ c ∈ acc := by
  induction l with
  | nil =>
    intro acc w hw c hc
    unfold splitWsAux at hw
    split at hw
    · exact absurd hw (List.not_mem_nil w)
    · rw [List.mem_singleton.1 hw] at hc
      exact Or.inr (List.mem_reverse.1 hc)
  | cons d rest ih =>
    intro acc w hw c hc
    unfold splitWsAux at hw
    split at hw
    · split at hw
      · rcases ih [] w hw c hc with h | h
        · exact Or.inl (List.mem_cons_of_mem _ h)
        · exact absurd h (List.not_mem_nil c)
      · rcases List.mem_cons.1 hw with rfl | hw2
        · exact Or.inr (List.mem_reverse.1 hc)
        · rcases ih [] w hw2 c hc with h | h
          · exact Or.inl (List.mem_cons_of_mem _ h)
          · exact absurd h (List.not_mem_nil c)
    · rcases ih (d :: acc) w hw c hc with h | h
      · exact Or.inl (List.mem_cons_of_mem _ h)
      · rcases List.mem_cons.1 h with rfl | h2
        · exact Or.inl (List.mem_cons_self _ _)
        · exact Or.inr h2

/-- C8: every token returned by _extract_keywords has length at least
3, is no stop word, and is invariant under lowercasing; the returned
list is deduplicated with at most 10 entries; and on the sample input
the stop word för is dropped while the three domain tokens are kept
lowercased. -/
theorem extract_keywords_token_properties :
    (∀ (text kw : String), kw ∈ extractKeywords text →
      3 ≤ kw.length ∧ stopWords.contains kw = false ∧ pyLower kw = kw) ∧
    (∀ text : String,
      (extractKeywords text).Nodup ∧ (extractKeywords text).length ≤ 10) ∧
    ("för" ∉ extractKeywords "Digital Ärendehantering för Medborgare" ∧
      "digital" ∈ extractKeywords "Digital Ärendehantering för Medborgare" ∧
      "ärendehantering" ∈ extractKeywords "Digital Ärendehantering för Medborgare" ∧
      "medborgare" ∈ extractKeywords "Digital Ärendehantering för Medborgare") := by
  refine ⟨?_, ?_, by decide⟩
  · intro text kw hkw
    unfold extractKeywords at hkw
    have hded := List.mem_dedup.1 (List.mem_of_mem_take hkw)
    obtain ⟨hwords, hpred⟩ := List.mem_filter.1 hded
    rw [Bool.and_eq_true] at hpred
    obtain ⟨h3, hstop⟩ := hpred
    rw [Bool.not_eq_true'] at hstop
    refine ⟨of_decide_eq_true h3, hstop, ?_⟩
    obtain ⟨w, hw, hmk⟩ := List.mem_map.1 hwords
    have hfix : ∀ c ∈ w, pyLowerChar c = c := by
      intro c hc
      rcases splitWsAux_chars _ [] w hw c hc with hcin | hcin
      · obtain ⟨c1, hc1, hcc⟩ := List.mem_map.1 hcin
        obtain ⟨c0, hc0, hcc0⟩ := List.mem_map.1 hc1
        rw [← hcc, ← hcc0]
        rcases cleanChar_eq_or (pyLowerChar c0) with he | he
        · rw [he]
          exact pyLowerChar_fixed c0
        · rw [he]
          decide
      · exact absurd hcin (List.not_mem_nil c)
    rw [← hmk]
    show String.mk (w.map pyLowerChar) = String.mk w
    rw [List.map_congr_left (g := id) hfix, List.map_id]
  · intro text
    constructor
    · exact (List.nodup_dedup _).sublist (List.take_sublist 10 _)
    · exact List.length_take_le 10 _

/-- C3 counterexample: in the new_service branch the reasoning string
is built without the best match name — the template interpolates only
the percentage — so the reasoning of a low-scoring result does not
mention the candidate SvcA at all. -/
theorem rag_low_branch_reasoning_no_name :
    (mapWithRagOk [⟨"chunk text", some "SvcA", (9 : ℚ)/10⟩] 10).serviceReasoning =
      "Låg matchning (10%) - ny tjänst behövs troligen." ∧
    containsSubstring
      ((mapWithRagOk [⟨"chunk text", some "SvcA", (9 : ℚ)/10⟩] 10).serviceReasoning)
      "SvcA" = false := by
  have hs : similarityOfDistance
      ((⟨"chunk text", some "SvcA", (9 : ℚ)/10⟩ : SearchResult).distance) = 1/10 := by
    show max 0 (1 - (9 : ℚ)/10) = 1/10
    rw [max_eq_right (by norm_num : (0 : ℚ) ≤ 1 - 9/10)]
    norm_num
  have hlt : similarityOfDistance
      ((⟨"chunk text", some "SvcA", (9 : ℚ)/10⟩ : SearchResult).distance) < (5 : ℚ)/10 := by
    rw [hs]
    norm_num
  have hout := (rag_threshold_determinism ⟨"chunk text", some "SvcA", (9 : ℚ)/10⟩ [] 10).2.2 hlt
  have hpct : pctOf (similarityOfDistance
      ((⟨"chunk text", some "SvcA", (9 : ℚ)/10⟩ : SearchResult).distance)) = 10 := by
    rw [hs, pctOf]
    norm_num
  rw [hout]
  constructor
  · show "Låg matchning (" ++ toString (pctOf (similarityOfDistance
        ((⟨"chunk text", some "SvcA", (9 : ℚ)/10⟩ : SearchResult).distance))) ++
      "%) - ny tjänst behövs troligen." = "Låg matchning (10%) - ny tjänst behövs troligen."
    rw [hpct]
    rfl
  · show containsSubstring ("Låg matchning (" ++ toString (pctOf (similarityOfDistance
        ((⟨"chunk text", some "SvcA", (9 : ℚ)/10⟩ : SearchResult).distance))) ++
      "%) - ny tjänst behövs troligen.") "SvcA" = false
    rw [hpct]
    decide

/-- Witness for extract_keywords_token_properties on one concrete
token of one concrete input. -/
theorem extract_keywords_token_properties_witness :
    3 ≤ ("digital" : String).length ∧
    stopWords.contains "digital" = false ∧
    pyLower "digital" = "digital" :=
  extract_keywords_token_properties.1 "Digital" "digital" (by decide)

/-- Witness for chunk_text_never_terminates at fuel 100. -/
theorem chunk_text_never_terminates_witness :
    chunkTextFuel 10 5 100 "a. bbbbbbbbbbbbbbbbbbbb" = none :=
  chunk_text_never_terminates.1 100

end InnovationHub
